import Mathlib

/-!
Verification of the playwright-pageman resource-lifecycle manager
(`src/page-manager.ts`): page/context trackers with push/remove/snapshot and a
bounded-time concurrent `closeAll`, a module-scoped registry slot with ambient
proxy accessors, and the auto-track monkey patch on `browser.newPage`.

Resources (pages, browser contexts) are opaque handles compared by identity;
they are modelled as numeric ids.  The asynchronous environment is modelled by
per-resource observations: an `isClosed` predicate (what `page.isClosed()`
returns at the moment `closeAll` inspects the page) and a `CloseOutcome`
(which branch of `Promise.race([resource.close(), timeoutTimer])` settles
first, and how).  Writes to stdout (the optional `logCleanup` lines) are not
modelled.
-/

set_option autoImplicit false

namespace PageMan

/-- A tracked resource handle (a `Page` or a `BrowserContext`), compared by
identity in the source; modelled as a numeric id. -/
abbrev Resource := Nat

/-- Options object `PageManOptions` after `resolveOptions` filled the defaults
(`Required<PageManOptions>`). -/
structure PageManOptions where
  closeTimeout : Nat
  logCleanup : Bool
  autoTrack : Bool
  deriving Repr, DecidableEq

/-- `defaultOptions` from the source: `{ closeTimeout: 5000, logCleanup: false,
autoTrack: true }`. -/
def defaultOptions : PageManOptions := ⟨5000, false, true⟩

/-- How one resource's `Promise.race([resource.close(), timeoutTimer])`
settles: the close resolves first, the close rejects first (with a message), or
the `setTimeout` timer fires first. -/
inductive CloseOutcome where
  | ok
  | errored (msg : String)
  | timedOut
  deriving Repr, DecidableEq

/-- Result of `Promise.race([resource.close(), timer])` in `closeAll`: the
timer branch rejects with the given timeout message (`new Error('… close
timeout')`); an error from `close()` propagates as is. -/
def raceClose (timeoutMsg : String) (o : CloseOutcome) : Except String Unit :=
  match o with
  | .ok => .ok ()
  | .errored m => .error m
  | .timedOut => .error timeoutMsg

/-- Observable record of one per-resource close attempt inside `closeAll`:
which resource the attempt was for, whether `resource.close()` was actually
invoked (`initiated`), and the error message the surrounding `try/catch`
caught, if any.  `caught = none` means the attempt body completed without
throwing. -/
structure AttemptRecord where
  resource : Resource
  initiated : Bool
  caught : Option String
  deriving Repr, DecidableEq

/-- The resources whose `close()` was actually invoked, in invocation order. -/
def initiatedResources (records : List AttemptRecord) : List Resource :=
  (records.filter (fun r => r.initiated)).map (fun r => r.resource)

/-- The body of `tracked.push(page)` guarded by `!this.tracked.includes(page)`:
append `r` unless already present. -/
def insertFresh (acc : List Resource) (r : Resource) : List Resource :=
  if r ∈ acc then acc else acc ++ [r]

-- ── PageTracker ────────────────────────────────────────────────────

/-- `class PageTracker`: the private `tracked` array plus the resolved
options. -/
structure PageTracker where
  tracked : List Resource
  options : PageManOptions
  deriving Repr, DecidableEq

/-- `PageTracker.push(...pages)`: for each page, append it unless
`tracked.includes(page)`. -/
def PageTracker.push (t : PageTracker) (pages : List Resource) : PageTracker :=
  ⟨pages.foldl insertFresh t.tracked, t.options⟩

/-- `get length()`. -/
def PageTracker.length (t : PageTracker) : Nat :=
  t.tracked.length

/-- `get pages()`: a fresh copy `[...this.tracked]` of the tracked sequence. -/
def PageTracker.pages (t : PageTracker) : List Resource :=
  t.tracked

/-- `PageTracker.remove(page)`: `indexOf` then `splice` of the first matching
entry, returning whether a removal happened.  The third component records the
`close()` calls the operation performs on resources — the source body contains
none, so it is always empty. -/
def PageTracker.remove (t : PageTracker) (p : Resource) :
    Bool × PageTracker × List Resource :=
  if p ∈ t.tracked then (true, ⟨t.tracked.erase p, t.options⟩, [])
  else (false, t, [])

/-- One element of the `closePromises` array for pages: the `async page => {
try { if (!page.isClosed()) await Promise.race([page.close(), timer]) } catch
{ … } }` closure.  The catch clause converts any rejection into a completed
attempt carrying the caught message; nothing is rethrown. -/
def pageCloseAttempt (isClosed : Resource → Bool) (beh : Resource → CloseOutcome)
    (p : Resource) : AttemptRecord :=
  if isClosed p then ⟨p, false, none⟩
  else
    match raceClose "Page close timeout" (beh p) with
    | .ok _ => ⟨p, true, none⟩
    | .error m => ⟨p, true, some m⟩

/-- The state transition and attempt trace of `PageTracker.closeAll`: early
return when nothing is tracked; otherwise map the per-page attempt over the
reversed snapshot `[...this.tracked].reverse()`, await all of them
(`Promise.allSettled`), then assign `this.tracked = []`. -/
def PageTracker.closeAllRun (t : PageTracker) (isClosed : Resource → Bool)
    (beh : Resource → CloseOutcome) : PageTracker × List AttemptRecord :=
  if t.tracked.length = 0 then (t, [])
  else (⟨[], t.options⟩, t.tracked.reverse.map (pageCloseAttempt isClosed beh))

/-- `PageTracker.closeAll` as a fallible async operation: it resolves with the
run above; every per-page rejection has already been caught inside
`pageCloseAttempt`, so no execution path rejects. -/
def PageTracker.closeAll (t : PageTracker) (isClosed : Resource → Bool)
    (beh : Resource → CloseOutcome) :
    Except String (PageTracker × List AttemptRecord) :=
  .ok (t.closeAllRun isClosed beh)

-- ── ContextTracker ─────────────────────────────────────────────────

/-- `class ContextTracker`: the private `tracked` array plus the resolved
options. -/
structure ContextTracker where
  tracked : List Resource
  options : PageManOptions
  deriving Repr, DecidableEq

/-- `ContextTracker.push(...contexts)`: same guarded append as for pages. -/
def ContextTracker.push (t : ContextTracker) (contexts : List Resource) :
    ContextTracker :=
  ⟨contexts.foldl insertFresh t.tracked, t.options⟩

/-- `get length()`. -/
def ContextTracker.length (t : ContextTracker) : Nat :=
  t.tracked.length

/-- `get contexts()`: a fresh copy of the tracked sequence. -/
def ContextTracker.contexts (t : ContextTracker) : List Resource :=
  t.tracked

/-- `ContextTracker.remove(context)`: `indexOf` then `splice`, as for pages;
the third component again records the (absent) `close()` calls. -/
def ContextTracker.remove (t : ContextTracker) (c : Resource) :
    Bool × ContextTracker × List Resource :=
  if c ∈ t.tracked then (true, ⟨t.tracked.erase c, t.options⟩, [])
  else (false, t, [])

/-- One element of `closePromises` for contexts: `async ctx => { try { await
Promise.race([ctx.close(), timer]) } catch { … } }`.  Unlike the page variant
there is no is-closed guard: `close()` is raced unconditionally. -/
def ctxCloseAttempt (beh : Resource → CloseOutcome) (c : Resource) :
    AttemptRecord :=
  match raceClose "Context close timeout" (beh c) with
  | .ok _ => ⟨c, true, none⟩
  | .error m => ⟨c, true, some m⟩

/-- The state transition and attempt trace of `ContextTracker.closeAll`. -/
def ContextTracker.closeAllRun (t : ContextTracker)
    (beh : Resource → CloseOutcome) : ContextTracker × List AttemptRecord :=
  if t.tracked.length = 0 then (t, [])
  else (⟨[], t.options⟩, t.tracked.reverse.map (ctxCloseAttempt beh))

/-- `ContextTracker.closeAll` as a fallible async operation; as for pages every
rejection is caught per attempt, so it always resolves. -/
def ContextTracker.closeAll (t : ContextTracker)
    (beh : Resource → CloseOutcome) :
    Except String (ContextTracker × List AttemptRecord) :=
  .ok (t.closeAllRun beh)

-- ── Scoped registry slots and ambient accessors ────────────────────

/-- The error condition of the ambient accessors: `extraPages` /
`extraContexts` used while no tracker is published for the current test (the
thrown `Error('… was accessed outside of a test …')`). -/
inductive PMError where
  | notActive
  deriving Repr, DecidableEq

/-- Tracker objects live on a heap indexed by identity; the registry slot
(`let currentExtraPages`) stores either `none` (`null`) or the identity of the
published fixture object. -/
abbrev PageHeap := Nat → PageTracker

/-- Heap of context trackers, for the `currentExtraContexts` slot. -/
abbrev CtxHeap := Nat → ContextTracker

/-- `assertExtraPagesActive()`: throw when the slot is `null`, otherwise
return the published fixture (its identity). -/
def assertExtraPagesActive (slot : Option Nat) : Except PMError Nat :=
  match slot with
  | none => .error .notActive
  | some id => .ok id

/-- `assertExtraContextsActive()`. -/
def assertExtraContextsActive (slot : Option Nat) : Except PMError Nat :=
  match slot with
  | none => .error .notActive
  | some id => .ok id

/-- `getExtraPages()`: just `assertExtraPagesActive()`. -/
def getExtraPages (slot : Option Nat) : Except PMError Nat :=
  assertExtraPagesActive slot

/-- `getExtraContexts()`: just `assertExtraContextsActive()`. -/
def getExtraContexts (slot : Option Nat) : Except PMError Nat :=
  assertExtraContextsActive slot

/-- The member names of the `ExtraPages` interface. -/
inductive PageMember where
  | push
  | length
  | remove
  | closeAll
  | pages
  deriving Repr, DecidableEq

/-- The member names of the `ExtraContexts` interface. -/
inductive CtxMember where
  | push
  | length
  | remove
  | closeAll
  | contexts
  deriving Repr, DecidableEq

/-- What a proxy `get` trap hands back: a plain data value (for the `length`
and snapshot getters, read from the tracker at the moment of access) or a
function member bound (`.bind(fixture)`) to the tracker that was in the slot
at the moment of access. -/
inductive PageMemberValue where
  | natVal (n : Nat)
  | listVal (l : List Resource)
  | boundTo (receiver : Nat) (m : PageMember)
  deriving Repr, DecidableEq

/-- Proxy member values for the contexts accessor. -/
inductive CtxMemberValue where
  | natVal (n : Nat)
  | listVal (l : List Resource)
  | boundTo (receiver : Nat) (m : CtxMember)
  deriving Repr, DecidableEq

/-- The `get` trap of the `extraPages` proxy: first
`assertExtraPagesActive()`, then read the member off that fixture; function
members are returned bound to it, data members are read from the tracker in
the slot right now. -/
def extraPagesGet (slot : Option Nat) (heap : PageHeap) (m : PageMember) :
    Except PMError PageMemberValue :=
  match assertExtraPagesActive slot with
  | .error e => .error e
  | .ok id =>
    match m with
    | .push => .ok (.boundTo id .push)
    | .length => .ok (.natVal (heap id).length)
    | .remove => .ok (.boundTo id .remove)
    | .closeAll => .ok (.boundTo id .closeAll)
    | .pages => .ok (.listVal (heap id).pages)

/-- The `get` trap of the `extraContexts` proxy. -/
def extraContextsGet (slot : Option Nat) (heap : CtxHeap) (m : CtxMember) :
    Except PMError CtxMemberValue :=
  match assertExtraContextsActive slot with
  | .error e => .error e
  | .ok id =>
    match m with
    | .push => .ok (.boundTo id .push)
    | .length => .ok (.natVal (heap id).length)
    | .remove => .ok (.boundTo id .remove)
    | .closeAll => .ok (.boundTo id .closeAll)
    | .contexts => .ok (.listVal (heap id).contexts)

/-- Invoking, at some later time, a `push` method that was obtained through
the proxy: the bound receiver identity was captured at access time, so the
call mutates that tracker on the current heap, whatever the slot holds now. -/
def invokeBoundPagePush (heap : PageHeap) (receiver : Nat)
    (args : List Resource) : PageHeap :=
  fun i => if i = receiver then (heap receiver).push args else heap i

/-- Later invocation of a bound `push` from the contexts accessor. -/
def invokeBoundCtxPush (heap : CtxHeap) (receiver : Nat)
    (args : List Resource) : CtxHeap :=
  fun i => if i = receiver then (heap receiver).push args else heap i

-- ── Module-scoped registry state (one JS module instance) ──────────

/-- The module-level mutable bindings `let currentExtraPages` and
`let currentExtraContexts`: exactly one such pair exists per loaded module
instance (per process), shared by everything that runs in that process. -/
structure ModuleState where
  currentExtraPages : Option Nat
  currentExtraContexts : Option Nat
  deriving Repr, DecidableEq

/-- The fixture setup's `currentExtraPages = fixture` assignment. -/
def publishPages (s : ModuleState) (id : Nat) : ModuleState :=
  ⟨some id, s.currentExtraContexts⟩

/-- The teardown's `finally { currentExtraPages = null }` assignment. -/
def clearPages (s : ModuleState) : ModuleState :=
  ⟨none, s.currentExtraContexts⟩

/-- An ambient read of the pages slot through `assertExtraPagesActive`. -/
def readPagesSlot (s : ModuleState) : Except PMError Nat :=
  assertExtraPagesActive s.currentExtraPages

-- ── Creation interceptor (auto-track) ──────────────────────────────

/-- The ordered side effects of one call to the patched `browser.newPage`:
delegation to the original factory, then the `fixture.push(page)`. -/
inductive PatchEvent where
  | delegated (p : Resource)
  | pushedToTracker (p : Resource)
  deriving Repr, DecidableEq

/-- One invocation of the patched `browser.newPage` installed by
`_autoTrackSetup`: `const page = await originalNewPage(...args);
fixture.push(page); return page`.  `produced` is the page the original
factory returns (external); the result is the updated tracker, the value
returned to the caller, and the ordered event trace. -/
def patchedNewPage (tracker : PageTracker) (produced : Resource) :
    PageTracker × Resource × List PatchEvent :=
  (tracker.push [produced], produced,
    [.delegated produced, .pushedToTracker produced])

/-- The tracker after a sequence of calls to the patched factory, each call's
original factory producing the next resource of `produced`. -/
def runPatchedCalls (tracker : PageTracker) (produced : List Resource) :
    PageTracker :=
  produced.foldl (fun t p => (patchedNewPage t p).1) tracker

/-- The value stored in the `browser.newPage` property: either whatever
function was there before the test, or the interceptor wrapper holding the
bound original. -/
inductive FactoryImpl where
  | unpatched (id : Nat)
  | patchedBy (orig : FactoryImpl)
  deriving Repr, DecidableEq

/-- Whether the test body completed normally or threw. -/
inductive BodyOutcome where
  | passed
  | failed
  deriving Repr, DecidableEq

/-- Observable run of the `_autoTrackSetup` auto fixture: what
`browser.newPage` held while the body ran, and what it holds after the
fixture finished. -/
structure AutoTrackRun where
  duringBody : FactoryImpl
  afterTest : FactoryImpl
  deriving Repr, DecidableEq

/-- `_autoTrackSetup`, with the host fixture runner modelled from the spec:
the runner's guaranteed-execution epilogue means `await use()` resolves when
the test body finishes whether it passed or failed (the runner catches body
failures and still runs fixture teardown), so the `browser.newPage =
originalNewPage` statement after it executes for either outcome.  The
patch/restore statements themselves are from `_autoTrackSetup` in the
source: when `options.autoTrack` holds, capture the original, install the
wrapper, run the body, reinstate the original; otherwise only run the body. -/
def autoTrackSetup (autoTrack : Bool) (slot0 : FactoryImpl)
    (outcome : BodyOutcome) : AutoTrackRun :=
  if autoTrack then
    match outcome with
    | .passed => ⟨.patchedBy slot0, slot0⟩
    | .failed => ⟨.patchedBy slot0, slot0⟩
  else ⟨slot0, slot0⟩

-- ── closeAll with a push interleaved mid-flight ────────────────────

/-- A run of `closeAll` with a `push` interleaved during its await window. -/
structure MidPushRun where
  records : List AttemptRecord
  midTracked : List Resource
  finalTracked : List Resource
  deriving Repr, DecidableEq

/-- `PageTracker.closeAll` with `push(...mid)` happening after the snapshot
`[...this.tracked].reverse()` is taken and while `Promise.allSettled` is
pending: the attempts are mapped over the snapshot only; the interleaved push
appends to `this.tracked` (the `midTracked` observation); the final
`this.tracked = []` assignment then clears everything.  Only meaningful when
the tracker is non-empty — on an empty tracker `closeAll` returns before any
await, leaving no window. -/
def PageTracker.closeAllMidPush (t : PageTracker) (isClosed : Resource → Bool)
    (beh : Resource → CloseOutcome) (mid : List Resource) : MidPushRun :=
  if t.tracked.length = 0 then
    ⟨[], t.tracked, t.tracked⟩
  else
    ⟨t.tracked.reverse.map (pageCloseAttempt isClosed beh),
      (t.push mid).tracked, []⟩

/-- `ContextTracker.closeAll` with a mid-flight `push(...mid)`. -/
def ContextTracker.closeAllMidPush (t : ContextTracker)
    (beh : Resource → CloseOutcome) (mid : List Resource) : MidPushRun :=
  if t.tracked.length = 0 then
    ⟨[], t.tracked, t.tracked⟩
  else
    ⟨t.tracked.reverse.map (ctxCloseAttempt beh), (t.push mid).tracked, []⟩

-- ── Push-call sequences ────────────────────────────────────────────

/-- A sequence of `push(...)` calls on one page tracker, each call carrying
its argument list. -/
def runPagePushCalls (t : PageTracker) (calls : List (List Resource)) :
    PageTracker :=
  calls.foldl PageTracker.push t

/-- A sequence of `push(...)` calls on one context tracker. -/
def runCtxPushCalls (t : ContextTracker) (calls : List (List Resource)) :
    ContextTracker :=
  calls.foldl ContextTracker.push t

-- ── Helper lemmas ──────────────────────────────────────────────────

theorem insertFresh_of_mem {acc : List Resource} {r : Resource} (h : r ∈ acc) :
    insertFresh acc r = acc := by
  simp [insertFresh, h]

theorem insertFresh_of_not_mem {acc : List Resource} {r : Resource}
    (h : r ∉ acc) : insertFresh acc r = acc ++ [r] := by
  simp [insertFresh, h]

theorem mem_foldl_insertFresh (l : List Resource) (acc : List Resource)
    (r : Resource) : r ∈ l.foldl insertFresh acc ↔ r ∈ acc ∨ r ∈ l := by
  induction l generalizing acc with
  | nil => simp
  | cons a l ih =>
    rw [List.foldl_cons, ih]
    unfold insertFresh
    split
    · rename_i ha
      simp only [List.mem_cons]
      constructor
      · rintro (h | h)
        · exact Or.inl h
        · exact Or.inr (Or.inr h)
      · rintro (h | h | h)
        · exact Or.inl h
        · exact Or.inl (h ▸ ha)
        · exact Or.inr h
    · simp only [List.mem_append, List.mem_singleton, List.mem_cons]
      tauto

theorem nodup_foldl_insertFresh (l : List Resource) {acc : List Resource}
    (h : acc.Nodup) : (l.foldl insertFresh acc).Nodup := by
  induction l generalizing acc with
  | nil => simpa
  | cons a l ih =>
    rw [List.foldl_cons]
    apply ih
    unfold insertFresh
    split
    · exact h
    · rename_i ha
      simp [List.nodup_append, h, List.disjoint_singleton, ha]

theorem length_foldl_insertFresh (l : List Resource) :
    (l.foldl insertFresh []).length = l.toFinset.card := by
  have hnd := nodup_foldl_insertFresh l List.nodup_nil
  have hset : (l.foldl insertFresh []).toFinset = l.toFinset := by
    ext r
    simp [List.mem_toFinset, mem_foldl_insertFresh]
  rw [← List.toFinset_card_of_nodup hnd, hset]

theorem pageCloseAttempt_resource (isClosed : Resource → Bool)
    (beh : Resource → CloseOutcome) (p : Resource) :
    (pageCloseAttempt isClosed beh p).resource = p := by
  unfold pageCloseAttempt
  split
  · rfl
  · cases raceClose "Page close timeout" (beh p) <;> rfl

theorem pageCloseAttempt_initiated (isClosed : Resource → Bool)
    (beh : Resource → CloseOutcome) (p : Resource) :
    (pageCloseAttempt isClosed beh p).initiated = !(isClosed p) := by
  unfold pageCloseAttempt
  split
  · rename_i h; simp [h]
  · rename_i h
    cases raceClose "Page close timeout" (beh p) <;> simp_all

theorem ctxCloseAttempt_resource (beh : Resource → CloseOutcome)
    (c : Resource) : (ctxCloseAttempt beh c).resource = c := by
  unfold ctxCloseAttempt
  cases raceClose "Context close timeout" (beh c) <;> rfl

theorem ctxCloseAttempt_initiated (beh : Resource → CloseOutcome)
    (c : Resource) : (ctxCloseAttempt beh c).initiated = true := by
  unfold ctxCloseAttempt
  cases raceClose "Context close timeout" (beh c) <;> rfl

theorem map_resource_pageAttempts (isClosed : Resource → Bool)
    (beh : Resource → CloseOutcome) (l : List Resource) :
    (l.map (pageCloseAttempt isClosed beh)).map AttemptRecord.resource = l := by
  rw [List.map_map]
  have : AttemptRecord.resource ∘ pageCloseAttempt isClosed beh = id := by
    funext p
    exact pageCloseAttempt_resource isClosed beh p
  rw [this, List.map_id]

theorem map_resource_ctxAttempts (beh : Resource → CloseOutcome)
    (l : List Resource) :
    (l.map (ctxCloseAttempt beh)).map AttemptRecord.resource = l := by
  rw [List.map_map]
  have : AttemptRecord.resource ∘ ctxCloseAttempt beh = id := by
    funext c
    exact ctxCloseAttempt_resource beh c
  rw [this, List.map_id]

theorem initiated_pageAttempts (isClosed : Resource → Bool)
    (beh : Resource → CloseOutcome) (l : List Resource) :
    initiatedResources (l.map (pageCloseAttempt isClosed beh)) =
      l.filter (fun p => !(isClosed p)) := by
  unfold initiatedResources
  rw [List.filter_map]
  have hpred : (AttemptRecord.initiated ∘ pageCloseAttempt isClosed beh) =
      fun p => !(isClosed p) := by
    funext p
    exact pageCloseAttempt_initiated isClosed beh p
  rw [hpred, map_resource_pageAttempts]

theorem initiated_ctxAttempts (beh : Resource → CloseOutcome)
    (l : List Resource) :
    initiatedResources (l.map (ctxCloseAttempt beh)) = l := by
  unfold initiatedResources
  rw [List.filter_map]
  have hpred : (AttemptRecord.initiated ∘ ctxCloseAttempt beh) =
      fun _ => true := by
    funext c
    exact ctxCloseAttempt_initiated beh c
  rw [hpred, List.filter_true, map_resource_ctxAttempts]

theorem runPatchedCalls_tracked (t : PageTracker) (l : List Resource) :
    (runPatchedCalls t l).tracked = l.foldl insertFresh t.tracked ∧
      (runPatchedCalls t l).options = t.options := by
  induction l generalizing t with
  | nil => exact ⟨rfl, rfl⟩
  | cons a l ih =>
    have step : runPatchedCalls t (a :: l) = runPatchedCalls (t.push [a]) l := rfl
    rw [step]
    rcases ih (t.push [a]) with ⟨h1, h2⟩
    refine ⟨?_, h2⟩
    rw [h1]
    rfl

theorem runPagePushCalls_tracked (t : PageTracker)
    (calls : List (List Resource)) :
    (runPagePushCalls t calls).tracked =
        calls.flatten.foldl insertFresh t.tracked ∧
      (runPagePushCalls t calls).options = t.options := by
  induction calls generalizing t with
  | nil => exact ⟨rfl, rfl⟩
  | cons c calls ih =>
    have step : runPagePushCalls t (c :: calls) =
        runPagePushCalls (t.push c) calls := rfl
    rw [step]
    rcases ih (t.push c) with ⟨h1, h2⟩
    refine ⟨?_, h2⟩
    rw [h1, List.flatten_cons, List.foldl_append]
    rfl

theorem runCtxPushCalls_tracked (t : ContextTracker)
    (calls : List (List Resource)) :
    (runCtxPushCalls t calls).tracked =
        calls.flatten.foldl insertFresh t.tracked ∧
      (runCtxPushCalls t calls).options = t.options := by
  induction calls generalizing t with
  | nil => exact ⟨rfl, rfl⟩
  | cons c calls ih =>
    have step : runCtxPushCalls t (c :: calls) =
        runCtxPushCalls (t.push c) calls := rfl
    rw [step]
    rcases ih (t.push c) with ⟨h1, h2⟩
    refine ⟨?_, h2⟩
    rw [h1, List.flatten_cons, List.foldl_append]
    rfl

-- ── Claim theorems ─────────────────────────────────────────────────

/-- C1: for every tracker (page kind and context kind) and every behaviour of
the underlying close operations (success, thrown error, or exceeding the
timeout), `closeAll` always resolves without throwing, and after it resolves
the tracker's length is 0 — even if every individual close failed. -/
theorem claim1_closeAll_always_resolves_and_empties :
    (∀ (t : PageTracker) (isClosed : Resource → Bool)
        (beh : Resource → CloseOutcome),
      ∃ t2 records, t.closeAll isClosed beh = .ok (t2, records) ∧
        t2.length = 0) ∧
    (∀ (t : ContextTracker) (beh : Resource → CloseOutcome),
      ∃ t2 records, t.closeAll beh = .ok (t2, records) ∧ t2.length = 0) := by
  constructor
  · intro t isClosed beh
    refine ⟨(t.closeAllRun isClosed beh).1, (t.closeAllRun isClosed beh).2,
      rfl, ?_⟩
    unfold PageTracker.closeAllRun PageTracker.length
    split
    · rename_i h
      simpa using h
    · simp
  · intro t beh
    refine ⟨(t.closeAllRun beh).1, (t.closeAllRun beh).2, rfl, ?_⟩
    unfold ContextTracker.closeAllRun ContextTracker.length
    split
    · rename_i h
      simpa using h
    · simp

/-- C2 counterexample: the claim asserts that for either resource kind a
resource reporting itself already closed is skipped.  `ContextTracker.closeAll`
consults no is-already-closed query at all: with a single tracked context `0`
and an is-closed query answering `true` for everything, the close of `0` is
still initiated, so the claim is false for the context kind. -/
theorem claim2_counterexample :
    ¬ (∀ (t : ContextTracker) (isClosed : Resource → Bool)
          (beh : Resource → CloseOutcome) (r : Resource),
        r ∈ initiatedResources (t.closeAllRun beh).2 → isClosed r = false) := by
  intro h
  have := h ⟨[0], defaultOptions⟩ (fun _ => true) (fun _ => .ok) 0 (by decide)
  simp at this

/-- C2 amended: `PageTracker.closeAll` initiates `close()` exactly for the
snapshot pages whose `isClosed()` answers `false` at that moment (already
closed pages are skipped), while `ContextTracker.closeAll` initiates `close()`
for every tracked context unconditionally — no is-closed query exists on the
context path. -/
theorem claim2_amended_only_pages_skip_closed :
    (∀ (t : PageTracker) (isClosed : Resource → Bool)
        (beh : Resource → CloseOutcome),
      initiatedResources (t.closeAllRun isClosed beh).2 =
        t.tracked.reverse.filter (fun p => !(isClosed p))) ∧
    (∀ (t : ContextTracker) (beh : Resource → CloseOutcome),
      initiatedResources (t.closeAllRun beh).2 = t.tracked.reverse) := by
  constructor
  · intro t isClosed beh
    unfold PageTracker.closeAllRun
    split
    · rename_i h
      have ht : t.tracked = [] := List.length_eq_zero.mp (by simpa using h)
      simp [ht, initiatedResources]
    · simpa using initiated_pageAttempts isClosed beh t.tracked.reverse
  · intro t beh
    unfold ContextTracker.closeAllRun
    split
    · rename_i h
      have ht : t.tracked = [] := List.length_eq_zero.mp (by simpa using h)
      simp [ht, initiatedResources]
    · simpa using initiated_ctxAttempts beh t.tracked.reverse

/-- C3: for both tracker kinds, `closeAll` processes its per-resource close
attempts over the reversed snapshot, so the attempt sequence is exactly the
tracked sequence in reverse (strict LIFO): resources pushed in order A, B, C
have their attempts initiated in order C, B, A. -/
theorem claim3_close_attempts_lifo :
    (∀ (t : PageTracker) (isClosed : Resource → Bool)
        (beh : Resource → CloseOutcome),
      ((t.closeAllRun isClosed beh).2).map AttemptRecord.resource =
        t.tracked.reverse) ∧
    (∀ (t : ContextTracker) (beh : Resource → CloseOutcome),
      ((t.closeAllRun beh).2).map AttemptRecord.resource =
        t.tracked.reverse) := by
  constructor
  · intro t isClosed beh
    unfold PageTracker.closeAllRun
    split
    · rename_i h
      have ht : t.tracked = [] := List.length_eq_zero.mp (by simpa using h)
      simp [ht]
    · simpa using map_resource_pageAttempts isClosed beh t.tracked.reverse
  · intro t beh
    unfold ContextTracker.closeAllRun
    split
    · rename_i h
      have ht : t.tracked = [] := List.length_eq_zero.mp (by simpa using h)
      simp [ht]
    · simpa using map_resource_ctxAttempts beh t.tracked.reverse

/-- C4: for every sequence of push calls on a tracker of either kind, `length`
equals the number of distinct-by-identity resources pushed so far, the tracked
sequence is duplicate-free and contains exactly the pushed resources, pushing
an already-tracked resource is a no-op that preserves the sequence, and a
fresh resource is appended at the end (insertion order of first arrivals is
preserved). -/
theorem claim4_push_dedups_and_preserves_order :
    (∀ (o : PageManOptions) (calls : List (List Resource)),
      (runPagePushCalls ⟨[], o⟩ calls).length = calls.flatten.toFinset.card ∧
      (runPagePushCalls ⟨[], o⟩ calls).tracked.Nodup ∧
      (∀ r, r ∈ (runPagePushCalls ⟨[], o⟩ calls).tracked ↔
        r ∈ calls.flatten)) ∧
    (∀ (t : PageTracker) (r : Resource), r ∈ t.tracked → t.push [r] = t) ∧
    (∀ (t : PageTracker) (r : Resource), r ∉ t.tracked →
      (t.push [r]).tracked = t.tracked ++ [r]) ∧
    (∀ (o : PageManOptions) (calls : List (List Resource)),
      (runCtxPushCalls ⟨[], o⟩ calls).length = calls.flatten.toFinset.card ∧
      (runCtxPushCalls ⟨[], o⟩ calls).tracked.Nodup ∧
      (∀ r, r ∈ (runCtxPushCalls ⟨[], o⟩ calls).tracked ↔
        r ∈ calls.flatten)) ∧
    (∀ (t : ContextTracker) (r : Resource), r ∈ t.tracked → t.push [r] = t) ∧
    (∀ (t : ContextTracker) (r : Resource), r ∉ t.tracked →
      (t.push [r]).tracked = t.tracked ++ [r]) := by
  refine ⟨?_, ?_, ?_, ?_, ?_, ?_⟩
  · intro o calls
    rcases runPagePushCalls_tracked ⟨[], o⟩ calls with ⟨h1, _⟩
    refine ⟨?_, ?_, ?_⟩
    · unfold PageTracker.length
      rw [h1]
      exact length_foldl_insertFresh calls.flatten
    · rw [h1]
      exact nodup_foldl_insertFresh calls.flatten List.nodup_nil
    · intro r
      rw [h1, mem_foldl_insertFresh]
      simp
  · intro t r h
    cases t with
    | mk tr o =>
      simp only [PageTracker.push, List.foldl_cons, List.foldl_nil]
      rw [insertFresh_of_mem h]
  · intro t r h
    cases t with
    | mk tr o =>
      simp only [PageTracker.push, List.foldl_cons, List.foldl_nil]
      rw [insertFresh_of_not_mem h]
  · intro o calls
    rcases runCtxPushCalls_tracked ⟨[], o⟩ calls with ⟨h1, _⟩
    refine ⟨?_, ?_, ?_⟩
    · unfold ContextTracker.length
      rw [h1]
      exact length_foldl_insertFresh calls.flatten
    · rw [h1]
      exact nodup_foldl_insertFresh calls.flatten List.nodup_nil
    · intro r
      rw [h1, mem_foldl_insertFresh]
      simp
  · intro t r h
    cases t with
    | mk tr o =>
      simp only [ContextTracker.push, List.foldl_cons, List.foldl_nil]
      rw [insertFresh_of_mem h]
  · intro t r h
    cases t with
    | mk tr o =>
      simp only [ContextTracker.push, List.foldl_cons, List.foldl_nil]
      rw [insertFresh_of_not_mem h]

/-- C4 witness: the duplicate-push no-op and fresh-append cases of
`claim4_push_dedups_and_preserves_order` at concrete trackers. -/
theorem claim4_witness :
    (⟨[5], defaultOptions⟩ : PageTracker).push [5] = ⟨[5], defaultOptions⟩ ∧
    ((⟨[5], defaultOptions⟩ : PageTracker).push [7]).tracked = [5] ++ [7] ∧
    (⟨[5], defaultOptions⟩ : ContextTracker).push [5] =
      ⟨[5], defaultOptions⟩ ∧
    ((⟨[5], defaultOptions⟩ : ContextTracker).push [7]).tracked =
      [5] ++ [7] :=
  ⟨claim4_push_dedups_and_preserves_order.2.1 ⟨[5], defaultOptions⟩ 5
      (by decide),
    claim4_push_dedups_and_preserves_order.2.2.1 ⟨[5], defaultOptions⟩ 7
      (by decide),
    claim4_push_dedups_and_preserves_order.2.2.2.2.1 ⟨[5], defaultOptions⟩ 5
      (by decide),
    claim4_push_dedups_and_preserves_order.2.2.2.2.2 ⟨[5], defaultOptions⟩ 7
      (by decide)⟩

/-- C5: for both tracker kinds, `remove` on an untracked resource returns
`false` and leaves the tracker unchanged; `remove` on a tracked resource
returns `true`, decreases `length` by exactly one, removes exactly that
resource while preserving the order of the others, and performs no `close()`
call. -/
theorem claim5_remove_semantics :
    (∀ (t : PageTracker) (p : Resource), p ∉ t.tracked →
      t.remove p = (false, t, [])) ∧
    (∀ (t : PageTracker) (p : Resource), p ∈ t.tracked →
      (t.remove p).1 = true ∧
      (t.remove p).2.1.length + 1 = t.length ∧
      (t.remove p).2.2 = [] ∧
      (t.tracked.Nodup →
        (t.remove p).2.1.tracked = t.tracked.filter (fun x => x != p))) ∧
    (∀ (t : ContextTracker) (c : Resource), c ∉ t.tracked →
      t.remove c = (false, t, [])) ∧
    (∀ (t : ContextTracker) (c : Resource), c ∈ t.tracked →
      (t.remove c).1 = true ∧
      (t.remove c).2.1.length + 1 = t.length ∧
      (t.remove c).2.2 = [] ∧
      (t.tracked.Nodup →
        (t.remove c).2.1.tracked = t.tracked.filter (fun x => x != c))) := by
  refine ⟨?_, ?_, ?_, ?_⟩
  · intro t p h
    simp [PageTracker.remove, h]
  · intro t p h
    refine ⟨?_, ?_, ?_, ?_⟩
    · simp [PageTracker.remove, h]
    · simp only [PageTracker.remove, h, if_pos, PageTracker.length]
      exact List.length_erase_add_one h
    · simp [PageTracker.remove, h]
    · intro hnd
      simp only [PageTracker.remove, h, if_pos]
      exact hnd.erase_eq_filter p
  · intro t c h
    simp [ContextTracker.remove, h]
  · intro t c h
    refine ⟨?_, ?_, ?_, ?_⟩
    · simp [ContextTracker.remove, h]
    · simp only [ContextTracker.remove, h, if_pos, ContextTracker.length]
      exact List.length_erase_add_one h
    · simp [ContextTracker.remove, h]
    · intro hnd
      simp only [ContextTracker.remove, h, if_pos]
      exact hnd.erase_eq_filter c

/-- C5 witness: `claim5_remove_semantics` at a concrete tracker, for an
untracked and for a tracked resource. -/
theorem claim5_witness :
    (⟨[1, 2, 3], defaultOptions⟩ : PageTracker).remove 9 =
      (false, ⟨[1, 2, 3], defaultOptions⟩, []) ∧
    ((⟨[1, 2, 3], defaultOptions⟩ : PageTracker).remove 2).1 = true ∧
    (⟨[1, 2, 3], defaultOptions⟩ : ContextTracker).remove 9 =
      (false, ⟨[1, 2, 3], defaultOptions⟩, []) ∧
    (((⟨[1, 2, 3], defaultOptions⟩ : ContextTracker).remove 2).2.1.length + 1 =
      (⟨[1, 2, 3], defaultOptions⟩ : ContextTracker).length) :=
  ⟨claim5_remove_semantics.1 ⟨[1, 2, 3], defaultOptions⟩ 9 (by decide),
    (claim5_remove_semantics.2.1 ⟨[1, 2, 3], defaultOptions⟩ 2 (by decide)).1,
    claim5_remove_semantics.2.2.1 ⟨[1, 2, 3], defaultOptions⟩ 9 (by decide),
    (claim5_remove_semantics.2.2.2 ⟨[1, 2, 3], defaultOptions⟩ 2
      (by decide)).2.1⟩

/-- C6: with no tracker published (`null` slot), every member access on the
`extraPages` / `extraContexts` proxies and every call to `getExtraPages` /
`getExtraContexts` fails with the NotActive error; once a tracker is
published, each access resolves against the tracker in the slot at the moment
of access (data members read it, function members come back bound to it), and
a bound method invoked later mutates exactly that underlying tracker. -/
theorem claim6_ambient_accessor_not_active_and_binding :
    (∀ (heap : PageHeap) (m : PageMember),
      extraPagesGet none heap m = .error .notActive) ∧
    (∀ (heap : CtxHeap) (m : CtxMember),
      extraContextsGet none heap m = .error .notActive) ∧
    getExtraPages none = .error .notActive ∧
    getExtraContexts none = .error .notActive ∧
    (∀ (id : Nat) (heap : PageHeap),
      getExtraPages (some id) = .ok id ∧
      extraPagesGet (some id) heap .length = .ok (.natVal (heap id).length) ∧
      extraPagesGet (some id) heap .pages = .ok (.listVal (heap id).pages) ∧
      extraPagesGet (some id) heap .push = .ok (.boundTo id .push) ∧
      extraPagesGet (some id) heap .remove = .ok (.boundTo id .remove) ∧
      extraPagesGet (some id) heap .closeAll = .ok (.boundTo id .closeAll)) ∧
    (∀ (id : Nat) (heap : CtxHeap),
      getExtraContexts (some id) = .ok id ∧
      extraContextsGet (some id) heap .length =
        .ok (.natVal (heap id).length) ∧
      extraContextsGet (some id) heap .contexts =
        .ok (.listVal (heap id).contexts) ∧
      extraContextsGet (some id) heap .push = .ok (.boundTo id .push) ∧
      extraContextsGet (some id) heap .remove = .ok (.boundTo id .remove) ∧
      extraContextsGet (some id) heap .closeAll =
        .ok (.boundTo id .closeAll)) ∧
    (∀ (id : Nat) (heap : PageHeap) (args : List Resource),
      invokeBoundPagePush heap id args id = (heap id).push args ∧
      ∀ j, j ≠ id → invokeBoundPagePush heap id args j = heap j) ∧
    (∀ (id : Nat) (heap : CtxHeap) (args : List Resource),
      invokeBoundCtxPush heap id args id = (heap id).push args ∧
      ∀ j, j ≠ id → invokeBoundCtxPush heap id args j = heap j) := by
  refine ⟨?_, ?_, rfl, rfl, ?_, ?_, ?_, ?_⟩
  · intro heap m
    cases m <;> rfl
  · intro heap m
    cases m <;> rfl
  · intro id heap
    exact ⟨rfl, rfl, rfl, rfl, rfl, rfl⟩
  · intro id heap
    exact ⟨rfl, rfl, rfl, rfl, rfl, rfl⟩
  · intro id heap args
    refine ⟨?_, ?_⟩
    · simp [invokeBoundPagePush]
    · intro j hj
      simp [invokeBoundPagePush, hj]
  · intro id heap args
    refine ⟨?_, ?_⟩
    · simp [invokeBoundCtxPush]
    · intro j hj
      simp [invokeBoundCtxPush, hj]

/-- C6 witness: `claim6_ambient_accessor_not_active_and_binding` at a concrete
heap: invoking a `push` bound to tracker 0 leaves the distinct tracker 1
untouched. -/
theorem claim6_witness :
    (1 : Nat) ≠ 0 ∧
    invokeBoundPagePush (fun _ => ⟨[], defaultOptions⟩) 0 [4] 1 =
      (fun _ => (⟨[], defaultOptions⟩ : PageTracker)) 1 :=
  ⟨by decide,
    (claim6_ambient_accessor_not_active_and_binding.2.2.2.2.2.2.1 0
      (fun _ => ⟨[], defaultOptions⟩) [4]).2 1 (by decide)⟩

/-- C7: while the auto-track interceptor is installed, every invocation of the
patched `browser.newPage` first delegates to the original factory, then pushes
the produced page into the active tracker, then returns that page unchanged;
after a sequence of factory calls every produced page appears in the tracker's
snapshot. -/
theorem claim7_patched_factory_tracks_produced :
    (∀ (t : PageTracker) (p : Resource),
      (patchedNewPage t p).2.1 = p ∧
      (patchedNewPage t p).2.2 =
        [.delegated p, .pushedToTracker p] ∧
      (patchedNewPage t p).1 = t.push [p]) ∧
    (∀ (t : PageTracker) (produced : List Resource) (p : Resource),
      p ∈ produced → p ∈ (runPatchedCalls t produced).pages) := by
  constructor
  · intro t p
    exact ⟨rfl, rfl, rfl⟩
  · intro t produced p hp
    rcases runPatchedCalls_tracked t produced with ⟨h1, _⟩
    unfold PageTracker.pages
    rw [h1, mem_foldl_insertFresh]
    exact Or.inr hp

/-- C7 witness: `claim7_patched_factory_tracks_produced` after two factory
calls producing pages 4 and 5. -/
theorem claim7_witness :
    (5 ∈ ([4, 5] : List Resource)) ∧
    5 ∈ (runPatchedCalls ⟨[], defaultOptions⟩ [4, 5]).pages :=
  ⟨by decide,
    claim7_patched_factory_tracks_produced.2 ⟨[], defaultOptions⟩ [4, 5] 5
      (by decide)⟩

/-- C8: whenever the interceptor was installed (`autoTrack` true), the original
`browser.newPage` is reinstated when the fixture finishes, for a passed and
for a failed test body alike; with `autoTrack` false the property slot is never
touched. -/
theorem claim8_patch_restored_unconditionally :
    ∀ (slot0 : FactoryImpl) (outcome : BodyOutcome),
      (autoTrackSetup true slot0 outcome).duringBody = .patchedBy slot0 ∧
      (autoTrackSetup true slot0 outcome).afterTest = slot0 ∧
      (autoTrackSetup false slot0 outcome).duringBody = slot0 ∧
      (autoTrackSetup false slot0 outcome).afterTest = slot0 := by
  intro s o
  cases o <;> exact ⟨rfl, rfl, rfl, rfl⟩

/-- C9 counterexample: the claim asserts that each concurrently running test
owns its own registry slot, so that a publish by one test is never observed by
another test's ambient accessor.  The source stores the slot in the single
module-level binding `let currentExtraPages`; publishing tracker 0 (test A)
and then tracker 1 (test B) makes test A's next ambient read observe tracker
1, not its own tracker 0. -/
theorem claim9_counterexample :
    ¬ (∀ (s : ModuleState) (idA idB : Nat),
        readPagesSlot (publishPages (publishPages s idA) idB) = .ok idA) := by
  intro h
  have h01 := h ⟨none, none⟩ 0 1
  simp [readPagesSlot, publishPages, assertExtraPagesActive] at h01

/-- C9 amended: the registry slot is one module-level mutable binding per
process, shared by everything running in that process: an ambient read
observes whichever tracker was published most recently, and observes the
NotActive error after a clear; isolation between tests holds only because the
host runner does not interleave two tests in one worker process. -/
theorem claim9_amended_single_module_slot :
    (∀ (s : ModuleState) (id : Nat),
      readPagesSlot (publishPages s id) = .ok id) ∧
    (∀ (s : ModuleState), readPagesSlot (clearPages s) = .error .notActive) :=
  ⟨fun _ _ => rfl, fun _ => rfl⟩

/-- C10: a resource pushed into a non-empty tracker of either kind after an
in-flight `closeAll` took its snapshot is tracked during the await window, has
its `close()` never initiated by that `closeAll`, and is nevertheless
untracked once the final unconditional `this.tracked = []` assignment runs. -/
theorem claim10_midflight_push_cleared_never_closed :
    (∀ (t : PageTracker) (isClosed : Resource → Bool)
        (beh : Resource → CloseOutcome) (mid : List Resource) (r : Resource),
      t.tracked ≠ [] → r ∈ mid → r ∉ t.tracked →
        r ∈ (t.closeAllMidPush isClosed beh mid).midTracked ∧
        r ∉ initiatedResources (t.closeAllMidPush isClosed beh mid).records ∧
        (t.closeAllMidPush isClosed beh mid).finalTracked = []) ∧
    (∀ (t : ContextTracker) (beh : Resource → CloseOutcome)
        (mid : List Resource) (r : Resource),
      t.tracked ≠ [] → r ∈ mid → r ∉ t.tracked →
        r ∈ (t.closeAllMidPush beh mid).midTracked ∧
        r ∉ initiatedResources (t.closeAllMidPush beh mid).records ∧
        (t.closeAllMidPush beh mid).finalTracked = []) := by
  constructor
  · intro t isClosed beh mid r hne hmid hnt
    have hlen : ¬ t.tracked.length = 0 := by
      simpa [List.length_eq_zero] using hne
    unfold PageTracker.closeAllMidPush
    rw [if_neg hlen]
    refine ⟨?_, ?_, rfl⟩
    · show r ∈ (t.push mid).tracked
      unfold PageTracker.push
      rw [mem_foldl_insertFresh]
      exact Or.inr hmid
    · show r ∉ initiatedResources
        (t.tracked.reverse.map (pageCloseAttempt isClosed beh))
      rw [initiated_pageAttempts]
      intro hr
      exact hnt (List.mem_reverse.mp (List.mem_of_mem_filter hr))
  · intro t beh mid r hne hmid hnt
    have hlen : ¬ t.tracked.length = 0 := by
      simpa [List.length_eq_zero] using hne
    unfold ContextTracker.closeAllMidPush
    rw [if_neg hlen]
    refine ⟨?_, ?_, rfl⟩
    · show r ∈ (t.push mid).tracked
      unfold ContextTracker.push
      rw [mem_foldl_insertFresh]
      exact Or.inr hmid
    · show r ∉ initiatedResources (t.tracked.reverse.map (ctxCloseAttempt beh))
      rw [initiated_ctxAttempts]
      intro hr
      exact hnt (List.mem_reverse.mp hr)

/-- C10 witness: `claim10_midflight_push_cleared_never_closed` on a tracker
holding page 1 with page 2 pushed mid-flight. -/
theorem claim10_witness :
    (([1] : List Resource) ≠ [] ∧ 2 ∈ ([2] : List Resource) ∧
      2 ∉ ([1] : List Resource)) ∧
    (2 ∈ ((⟨[1], defaultOptions⟩ : PageTracker).closeAllMidPush
        (fun _ => false) (fun _ => .ok) [2]).midTracked ∧
      2 ∉ initiatedResources
        ((⟨[1], defaultOptions⟩ : PageTracker).closeAllMidPush
          (fun _ => false) (fun _ => .ok) [2]).records ∧
      ((⟨[1], defaultOptions⟩ : PageTracker).closeAllMidPush
        (fun _ => false) (fun _ => .ok) [2]).finalTracked = []) :=
  ⟨⟨by decide, by decide, by decide⟩,
    claim10_midflight_push_cleared_never_closed.1 ⟨[1], defaultOptions⟩
      (fun _ => false) (fun _ => .ok) [2] 2 (by decide) (by decide)
      (by decide)⟩

end PageMan
